import Mathlib

/-!
Verification of the EmberAPI route-matching engine.

This file shallowly embeds the routing core of the repository:

* `JS` namespace — the CommonJS implementation:
  `packages/router/src/radix-tree.js` (`RadixTree.addRoute`,
  `RadixTree.findRoute`, `RadixTree._search`) and
  `packages/router/src/compiler.js` (`RouteCompiler.compile`).
* `TS` namespace — the TypeScript implementation:
  the shared insertion code (`insertRoute` in `radix-tree.ts` and in the
  unnamed part_005 file, which are textually identical), the recursive
  matcher `searchNode`/`findRoute` of part_005, and the iterative
  matcher `findRoute` of `radix-tree.ts` (modelled with explicit fuel,
  since only concrete runs of it are needed).

JavaScript `Map` objects and plain objects used as dictionaries are
modelled as association lists with insert-or-replace (`setAssoc`),
lookup (`getAssoc`) and delete (`delAssoc`), which preserves the
key-enumeration-order semantics of the source.  Handlers and middleware
are opaque in the source and are modelled as `Nat` identifiers.
JavaScript exceptions (only `decodeURIComponent`'s `URIError` can occur
in the modelled code) are modelled with `Except Unit`.
All definitions use structural recursion so that closed computations
reduce in the kernel.
-/

/-- Value-with-handler payload stored per method at a terminal node
(radix-tree.js stores `{ handler, middleware }`). -/
structure Found where
  handler : Nat
  middleware : List Nat
deriving DecidableEq

/-- A params dictionary: JS object mapping parameter names to strings. -/
abbrev Params := List (String × String)

/-- JS `map.set(k, v)` / `obj[k] = v`: replace in place if the key is
present (keeping its position), otherwise append. -/
def setAssoc {α : Type} : List (String × α) → String → α → List (String × α)
  | [], k, v => [(k, v)]
  | (k', v') :: t, k, v => if k' = k then (k, v) :: t else (k', v') :: setAssoc t k v

/-- JS `map.get(k)` / `obj[k]` lookup. -/
def getAssoc {α : Type} : List (String × α) → String → Option α
  | [], _ => none
  | (k', v') :: t, k => if k' = k then some v' else getAssoc t k

/-- JS `delete obj[k]`: removes the (unique) entry with the key. -/
def delAssoc {α : Type} : List (String × α) → String → List (String × α)
  | [], _ => []
  | (k', v') :: t, k => if k' = k then t else (k', v') :: delAssoc t k

/-- `s.split(sep)` for a one-character separator, as in JS:
`''.split('/') = ['']`, separators at the ends produce empty chunks. -/
def splitOnCharAux (sep : Char) : List Char → List Char → List String
  | [], acc => [String.mk acc.reverse]
  | c :: t, acc =>
    if c = sep then String.mk acc.reverse :: splitOnCharAux sep t []
    else splitOnCharAux sep t (c :: acc)

/-- JS `path.split(sep)` for a single-character separator. -/
def splitOnChar (sep : Char) (s : String) : List String :=
  splitOnCharAux sep s.data []

/-- JS `s.startsWith(c)` for a one-character prefix. -/
def strStartsWith (s : String) (c : Char) : Bool :=
  match s.data with
  | [] => false
  | c' :: _ => c' = c

/-- JS `s.slice(1)`. -/
def strDrop1 (s : String) : String := String.mk (s.data.drop 1)

/-- JS `path.replace(/\/$/, '')`: drop one trailing slash if present. -/
def stripTrailingSlash (s : String) : String :=
  if s.data.getLast? = some '/' then String.mk s.data.dropLast else s

/-- JS `array.join('/')`. -/
def joinSlash : List String → String
  | [] => ""
  | [s] => s
  | s :: t => s ++ "/" ++ joinSlash t

/-- JS `s.toUpperCase()` (the methods in this code are ASCII). -/
def upper (s : String) : String := String.mk (s.data.map Char.toUpper)

/-- Value of an ASCII hex digit, `none` otherwise. -/
def hexVal (c : Char) : Option Nat :=
  if '0' ≤ c ∧ c ≤ '9' then some (c.toNat - 48)
  else if 'A' ≤ c ∧ c ≤ 'F' then some (c.toNat - 55)
  else if 'a' ≤ c ∧ c ≤ 'f' then some (c.toNat - 87)
  else none

/-- UTF-8 encoding of one character, as a byte list. -/
def utf8EncodeChar (c : Char) : List Nat :=
  let n := c.toNat
  if n < 0x80 then [n]
  else if n < 0x800 then [0xC0 + n / 64, 0x80 + n % 64]
  else if n < 0x10000 then [0xE0 + n / 4096, 0x80 + (n / 64) % 64, 0x80 + n % 64]
  else [0xF0 + n / 262144, 0x80 + (n / 4096) % 64, 0x80 + (n / 64) % 64, 0x80 + n % 64]

/-- Percent-decoding pass of `decodeURIComponent`: each `%hh` becomes the
byte `hh` (failing on a malformed escape such as `%zz`), every other
character contributes its UTF-8 bytes. -/
def pctBytes : List Char → Option (List Nat)
  | [] => some []
  | '%' :: h1 :: h2 :: t =>
    match hexVal h1, hexVal h2 with
    | some a, some b =>
      match pctBytes t with
      | some bs => some ((16 * a + b) :: bs)
      | none => none
    | _, _ => none
  | '%' :: _ => none
  | c :: t =>
    match pctBytes t with
    | some bs => some (utf8EncodeChar c ++ bs)
    | none => none

/-- `0x80 ≤ b < 0xC0`: a UTF-8 continuation byte. -/
def isCont (b : Nat) : Bool := 0x80 ≤ b && b < 0xC0

/-- Strict UTF-8 decoding of a byte list, `none` on malformed input
(overlong forms, surrogates, out-of-range code points), as JS
`decodeURIComponent` requires of the bytes produced by `%hh` escapes. -/
def utf8Decode : List Nat → Option (List Char)
  | [] => some []
  | b :: rest =>
    if b < 0x80 then
      match utf8Decode rest with
      | some cs => some (Char.ofNat b :: cs)
      | none => none
    else if b < 0xC2 then none
    else if b < 0xE0 then
      match rest with
      | b2 :: rest2 =>
        if isCont b2 then
          match utf8Decode rest2 with
          | some cs => some (Char.ofNat ((b - 0xC0) * 64 + (b2 - 0x80)) :: cs)
          | none => none
        else none
      | [] => none
    else if b < 0xF0 then
      match rest with
      | b2 :: b3 :: rest3 =>
        if isCont b2 && isCont b3 then
          let n := (b - 0xE0) * 4096 + (b2 - 0x80) * 64 + (b3 - 0x80)
          if n < 0x800 ∨ (0xD800 ≤ n ∧ n < 0xE000) then none
          else
            match utf8Decode rest3 with
            | some cs => some (Char.ofNat n :: cs)
            | none => none
        else none
      | _ => none
    else if b < 0xF5 then
      match rest with
      | b2 :: b3 :: b4 :: rest4 =>
        if isCont b2 && isCont b3 && isCont b4 then
          let n := (b - 0xF0) * 262144 + (b2 - 0x80) * 4096 + (b3 - 0x80) * 64 + (b4 - 0x80)
          if n < 0x10000 ∨ 0x110000 ≤ n then none
          else
            match utf8Decode rest4 with
            | some cs => some (Char.ofNat n :: cs)
            | none => none
        else none
      | _ => none
    else none

/-- JS `decodeURIComponent`: `some` is normal return, `none` is a thrown
`URIError` (malformed percent escape or invalid UTF-8). -/
def decodeURIComponent (s : String) : Option String :=
  match pctBytes s.data with
  | some bs =>
    match utf8Decode bs with
    | some cs => some (String.mk cs)
    | none => none
  | none => none

/-- `segments.map(s => decodeURIComponent(s))`: JS `Array.map` with a
throwing callback stops at the first failure. -/
def decodeAll : List String → Option (List String)
  | [] => some []
  | s :: t =>
    match decodeURIComponent s with
    | none => none
    | some v =>
      match decodeAll t with
      | none => none
      | some vs => some (v :: vs)

/-- Result of a successful route lookup (`{ handler, middleware, params }`). -/
structure MatchResult where
  handler : Nat
  middleware : List Nat
  params : Params
deriving DecidableEq

namespace JS

/-! ### `packages/router/src/radix-tree.js` -/

/-- `RadixNode` (radix-tree.js lines 5-15): static children map, at most
one parameter child, at most one wildcard child, an optional per-method
handler table (`null` until the first route terminates here), and the
parameter name bound to this node when it is a param/wildcard child. -/
inductive RadixNode where
  | mk (children : List (String × RadixNode))
       (paramChild : Option RadixNode)
       (wildcardChild : Option RadixNode)
       (handler : Option (List (String × Found)))
       (paramName : Option String)

def RadixNode.children : RadixNode → List (String × RadixNode)
  | .mk c _ _ _ _ => c

def RadixNode.paramChild : RadixNode → Option RadixNode
  | .mk _ p _ _ _ => p

def RadixNode.wildcardChild : RadixNode → Option RadixNode
  | .mk _ _ w _ _ => w

def RadixNode.handler : RadixNode → Option (List (String × Found))
  | .mk _ _ _ h _ => h

def RadixNode.paramName : RadixNode → Option String
  | .mk _ _ _ _ n => n

/-- `new RadixNode()`. -/
def RadixNode.empty : RadixNode := .mk [] none none none none

/-- `node.children.get(s)`. -/
def RadixNode.childAt (n : RadixNode) (s : String) : Option RadixNode :=
  getAssoc n.children s

/-- `node.handler && node.handler.has(method) ? node.handler.get(method) : null`. -/
def handlerGet (node : RadixNode) (method : String) : Option Found :=
  match node.handler with
  | some tbl => getAssoc tbl method
  | none => none

/-- One route record pushed on `this.routes` by `addRoute`. -/
structure RouteRec where
  method : String
  path : String
  handler : Nat
  middleware : List Nat
deriving DecidableEq

/-- `RadixTree`: root node plus the list of registered routes. -/
structure RadixTree where
  root : RadixNode
  routes : List RouteRec

def RadixTree.empty : RadixTree := ⟨RadixNode.empty, []⟩

/-- Path normalization shared by `addRoute` (lines 42-43) and
`findRoute` (lines 87-88): a `'/'` path becomes the one-element segment
list `['/']`; otherwise one trailing slash is dropped and the path is
split on `'/'`, discarding empty segments. -/
def pathSegments (path : String) : List String :=
  let normalizedPath := if path = "/" then "/" else stripTrailingSlash path
  if normalizedPath = "/" then ["/"]
  else (splitOnChar '/' normalizedPath).filter (· != "")

/-- The segment-walking loop of `addRoute` (lines 45-77): creates or
reuses children along the pattern's segments and registers
`method ↦ { handler, middleware }` at the final node.  A param or
wildcard child gets its `paramName` only when it is created (lines
52-55, 59-62); an existing child is reused with its old name. -/
def insertSegs : RadixNode → List String → String → Found → RadixNode
  | .mk ch pc wc h pn, [], method, f =>
    .mk ch pc wc (some (setAssoc (h.getD []) method f)) pn
  | .mk ch pc wc h pn, seg :: rest, method, f =>
    if strStartsWith seg ':' then
      let child := pc.getD (.mk [] none none none (some (strDrop1 seg)))
      .mk ch (some (insertSegs child rest method f)) wc h pn
    else if seg == "*" || strStartsWith seg '*' then
      let child := wc.getD
        (.mk [] none none none (some (if seg = "*" then "wildcard" else strDrop1 seg)))
      .mk ch pc (some (insertSegs child rest method f)) h pn
    else
      let child := (getAssoc ch seg).getD (.mk [] none none none none)
      .mk (setAssoc ch seg (insertSegs child rest method f)) pc wc h pn

/-- `RadixTree.addRoute(method, path, handler, middleware)` (lines 37-78). -/
def addRoute (t : RadixTree) (method path : String) (handler : Nat)
    (middleware : List Nat) : RadixTree :=
  ⟨insertSegs t.root (pathSegments path) method ⟨handler, middleware⟩,
   t.routes ++ [⟨method, path, handler, middleware⟩]⟩

/-- The wildcard attempt at the end of `_search` (lines 130-135): bind
the decoded, re-joined remaining segments under the wildcard's name,
then consult the wildcard child's method table.  The binding is made
whether or not a route is found (the source never unbinds it). -/
def searchW (node : RadixNode) (rem : List String) (p2 : Params)
    (method : String) : Except Unit (Option Found × Params) :=
  match node.wildcardChild with
  | some wc =>
    match decodeAll rem with
    | none => .error ()
    | some vs =>
      .ok (handlerGet wc method, setAssoc p2 (wc.paramName.getD "") (joinSlash vs))
  | none => .ok (none, p2)

/-- `RadixTree._search(node, segments, index, params, method)` (lines
104-138).  The `index` into the segment array is modelled by the list
`rem` of remaining segments (`rem = segments.slice(index)`), which makes
the recursion structural; `segments[index]` is `rem`'s head and
`segments.slice(index)` is `rem` itself.  The mutated `params` object is
threaded through as a value and returned alongside the result; a thrown
`URIError` from `decodeURIComponent` is `.error ()`. -/
def search : RadixNode → List String → Params → String → Except Unit (Option Found × Params)
  | node, [], ps, method => .ok (handlerGet node method, ps)
  | node, seg :: rest, ps, method =>
    let afterStatic : Except Unit (Option Found × Params) :=
      match getAssoc node.children seg with
      | some child => search child rest ps method
      | none => .ok (none, ps)
    match afterStatic with
    | .error e => .error e
    | .ok (some r, p) => .ok (some r, p)
    | .ok (none, p1) =>
      let afterParam : Except Unit (Option Found × Params) :=
        match node.paramChild with
        | some pc =>
          match decodeURIComponent seg with
          | none => .error ()
          | some v =>
            match search pc rest (setAssoc p1 (pc.paramName.getD "") v) method with
            | .error e => .error e
            | .ok (some r, p2) => .ok (some r, p2)
            | .ok (none, p2) => .ok (none, delAssoc p2 (pc.paramName.getD ""))
        | none => .ok (none, p1)
      match afterParam with
      | .error e => .error e
      | .ok (some r, p) => .ok (some r, p)
      | .ok (none, p2) => searchW node (seg :: rest) p2 method

/-- `RadixTree.findRoute(method, path)` (lines 86-98): normalize the
path, run `_search` with a fresh `params` object, and spread the found
`{ handler, middleware }` together with the final `params`. -/
def findRoute (t : RadixTree) (method path : String) :
    Except Unit (Option MatchResult) :=
  match search t.root (pathSegments path) [] method with
  | .error e => .error e
  | .ok (some f, ps) => .ok (some ⟨f.handler, f.middleware, ps⟩)
  | .ok (none, _) => .ok none

/-- The parameter attempt of `_search` (lines 122-127), as a standalone
view used to state the cascade lemma `search_cons`: bind the decoded
segment, recurse, and unbind on failure. -/
def searchP (node : RadixNode) (seg : String) (rest : List String)
    (p1 : Params) (method : String) : Except Unit (Option Found × Params) :=
  match node.paramChild with
  | some pc =>
    match decodeURIComponent seg with
    | none => .error ()
    | some v =>
      match search pc rest (setAssoc p1 (pc.paramName.getD "") v) method with
      | .error e => .error e
      | .ok (some r, p2) => .ok (some r, p2)
      | .ok (none, p2) => .ok (none, delAssoc p2 (pc.paramName.getD ""))
  | none => .ok (none, p1)

/-! ### `packages/router/src/compiler.js` -/

/-- One compiled pattern entry (`{type, name}` / `{type, value}`). -/
inductive SegSpec where
  | staticSeg (value : String)
  | param (name : String)
  | wild (name : String)
deriving DecidableEq

/-- Result of `RouteCompiler.compile` (lines 38-43). -/
structure Compiled where
  path : String
  paramNames : List String
  pattern : List SegSpec
  segmentCount : Nat
deriving DecidableEq

/-- The segment loop of `RouteCompiler.compile` (lines 25-36), returning
the accumulated `paramNames` and `pattern` in order. -/
def compileSegs : List String → List String × List SegSpec
  | [] => ([], [])
  | seg :: rest =>
    let (pns, pat) := compileSegs rest
    if strStartsWith seg ':' then
      (strDrop1 seg :: pns, .param (strDrop1 seg) :: pat)
    else if seg == "*" || strStartsWith seg '*' then
      let name := if seg = "*" then "wildcard" else strDrop1 seg
      (name :: pns, .wild name :: pat)
    else
      (pns, .staticSeg seg :: pat)

/-- `RouteCompiler.compile(path)` (compiler.js lines 20-44).  Note that
it is total: no input makes it signal an error. -/
def compile (path : String) : Compiled :=
  let segments := (splitOnChar '/' path).filter (· != "")
  let (pns, pat) := compileSegs segments
  ⟨path, pns, pat, segments.length⟩

/-! ### Matching priority as the spec states it -/

/-- The wildcard step of the spec's cascade: consult the wildcard
child's method table, if any. -/
def specW (node : RadixNode) (method : String) : Option Found :=
  match node.wildcardChild with
  | some wc => handlerGet wc method
  | none => none

/-- Which route the spec's matching algorithm selects.  This is a second
definition written from the spec's words (§4.2 Matching): at every node
try (1) the exact static child and recurse, if that subtree yields no
match try (2) the parameter child and recurse, if that subtree yields no
match try (3) the wildcard child as a terminal; at the end of the path
consult the node's method table.  Parameter bindings do not influence
which route is selected, so this route-selection function carries no
params; it is compared against the source's `search`. -/
def specRoute : RadixNode → List String → String → Option Found
  | node, [], method => handlerGet node method
  | node, seg :: rest, method =>
    match (match getAssoc node.children seg with
           | some child => specRoute child rest method
           | none => none) with
    | some r => some r
    | none =>
      match (match node.paramChild with
             | some pc => specRoute pc rest method
             | none => none) with
      | some r => some r
      | none =>
        match node.wildcardChild with
        | some wc => handlerGet wc method
        | none => none

/-- The parameter step of the spec's cascade. -/
def specP (node : RadixNode) (rest : List String) (method : String) : Option Found :=
  match node.paramChild with
  | some pc => specRoute pc rest method
  | none => none

end JS

namespace TS

/-! ### `packages/router/src/types.ts` + `radix-tree.ts` / part_005 -/

/-- `CompiledRoute` as stored in the TypeScript tree (the `matcher`
closure is never used by the tree code and is omitted). -/
structure Route where
  pattern : String
  handler : Nat
  middleware : List Nat
  paramNames : List String
deriving DecidableEq

/-- `RadixNode` of types.ts: node path, static children, per-method
routes, optional param/wildcard children, and the bound param name. -/
inductive Node where
  | mk (path : String)
       (children : List (String × Node))
       (routes : List (String × Route))
       (paramChild : Option Node)
       (wildcardChild : Option Node)
       (paramName : Option String)

def Node.path : Node → String
  | .mk p _ _ _ _ _ => p

def Node.children : Node → List (String × Node)
  | .mk _ c _ _ _ _ => c

def Node.routes : Node → List (String × Route)
  | .mk _ _ r _ _ _ => r

def Node.paramChild : Node → Option Node
  | .mk _ _ _ pc _ _ => pc

def Node.wildcardChild : Node → Option Node
  | .mk _ _ _ _ wc _ => wc

def Node.paramName : Node → Option String
  | .mk _ _ _ _ _ n => n

/-- `createNode(path)` (radix-tree.ts / part_005 lines 11-17). -/
def createNode (path : String) : Node := .mk path [] [] none none none

/-- The segment loop of `insertRoute` (radix-tree.ts and part_005 lines
30-51, which are textually identical): `:`-segments create/reuse the
param child (its `paramName` is set only at creation), a segment equal
to `*` creates/reuses the wildcard child, anything else a static child.
The route is stored at the final node under the uppercased method
(line 54); the uppercased method is passed in. -/
def insertSegs : Node → List String → String → Route → Node
  | .mk p ch rts pc wc pn, [], methodU, route =>
    .mk p ch (setAssoc rts methodU route) pc wc pn
  | .mk p ch rts pc wc pn, seg :: rest, methodU, route =>
    if strStartsWith seg ':' then
      let child := pc.getD (.mk seg [] [] none none (some (strDrop1 seg)))
      .mk p ch rts (some (insertSegs child rest methodU route)) wc pn
    else if seg = "*" then
      let child := wc.getD (createNode "*")
      .mk p ch rts pc (some (insertSegs child rest methodU route)) pn
    else
      let child := (getAssoc ch seg).getD (createNode seg)
      .mk p (setAssoc ch seg (insertSegs child rest methodU route)) rts pc wc pn

/-- `insertRoute(root, method, route)` (radix-tree.ts / part_005 lines
22-55): split the pattern on `/` discarding empty segments, walk/create
nodes, store the route under `method.toUpperCase()`. -/
def insertRoute (root : Node) (method : String) (route : Route) : Node :=
  insertSegs root ((splitOnChar '/' route.pattern).filter (· != "")) (upper method) route

/-- `searchNode(node, segments, index, params, method)` (part_005 lines
83-135): same backtracking cascade as the JS `_search`, except that the
terminal lookup reads `node.routes`, and the wildcard binds under the
literal key `'*'`.  The index is modelled by the remaining-segment list,
and the mutated `params` object is threaded as a value. -/
def searchNode : Node → List String → Params → String → Except Unit (Option Route × Params)
  | node, [], ps, methodU => .ok (getAssoc node.routes methodU, ps)
  | node, seg :: rest, ps, methodU =>
    let afterStatic : Except Unit (Option Route × Params) :=
      match getAssoc node.children seg with
      | some child => searchNode child rest ps methodU
      | none => .ok (none, ps)
    match afterStatic with
    | .error e => .error e
    | .ok (some r, p) => .ok (some r, p)
    | .ok (none, p1) =>
      let afterParam : Except Unit (Option Route × Params) :=
        match node.paramChild with
        | some pc =>
          match decodeURIComponent seg with
          | none => .error ()
          | some v =>
            match searchNode pc rest (setAssoc p1 (pc.paramName.getD "") v) methodU with
            | .error e => .error e
            | .ok (some r, p2) => .ok (some r, p2)
            | .ok (none, p2) => .ok (none, delAssoc p2 (pc.paramName.getD ""))
        | none => .ok (none, p1)
      match afterParam with
      | .error e => .error e
      | .ok (some r, p) => .ok (some r, p)
      | .ok (none, p2) =>
        match node.wildcardChild with
        | some wc =>
          match decodeAll (seg :: rest) with
          | none => .error ()
          | some vs => .ok (getAssoc wc.routes methodU, setAssoc p2 "*" (joinSlash vs))
        | none => .ok (none, p2)

/-- `findRoute(root, method, path)` of part_005 (lines 61-78): split on
`/` discarding empty segments, search with the uppercased method, and
package `{ handler, params, middleware }`. -/
def findRouteRec (root : Node) (method path : String) :
    Except Unit (Option MatchResult) :=
  match searchNode root ((splitOnChar '/' path).filter (· != "")) [] (upper method) with
  | .error e => .error e
  | .ok (some r, ps) => .ok (some ⟨r.handler, r.middleware, ps⟩)
  | .ok (none, _) => .ok none

/-! ### The iterative `findRoute` of `radix-tree.ts` (lines 61-230) -/

/-- `segment.indexOf('%') === -1 ? segment : decodeURIComponent(segment)`. -/
def decodeGuard (s : String) : Option String :=
  if s.data.contains '%' then decodeURIComponent s else some s

/-- One backtracking stack entry (line 139): the state stored when a
parameter edge is taken. -/
structure Frame where
  node : Node
  index : Nat
  pName : Option String

/-- The ts `segmentCount` computation (lines 75-82): the number of `/`
characters after position 0, plus one when the path is longer than one
character. -/
def tsSegCount (path : String) : Nat :=
  ((path.data.drop 1).filter (· == '/')).length +
    (if 1 < path.data.length then 1 else 0)

/-- The ts segment collection (lines 85-96): non-empty chunks of the
path after its first character, split on `/`. -/
def tsSplit (path : String) : List String :=
  (splitOnChar '/' (strDrop1 path)).filter (· != "")

/-- The `while (true)` loop of the ts `findRoute` (lines 142-229),
with explicit fuel (the result `none` means the fuel ran out; every
concrete run in this file terminates well within its fuel).  Faithful
points: taking a static edge pushes nothing on the stack; taking a
param edge pushes the state *after* the edge (lines 176-186); the
wildcard is tried only when there is neither a static nor a param
child, binds under `'*'`, and on a missed route falls through to the
shared backtrack code with the binding kept (lines 190-228). -/
def iterGo (fuel : Nat) (segs : List String) (segCount : Nat) (methodU : String)
    (node : Node) (i : Nat) (ps : Params) (stack : List Frame) :
    Option (Except Unit (Option MatchResult)) :=
  match fuel with
  | 0 => none
  | Nat.succ fuel =>
    if segCount ≤ i then
      match getAssoc node.routes methodU with
      | some r => some (.ok (some ⟨r.handler, r.middleware, ps⟩))
      | none =>
        match stack with
        | [] => some (.ok none)
        | fr :: rest =>
          iterGo fuel segs segCount methodU fr.node fr.index
            (match fr.pName with | some n => delAssoc ps n | none => ps) rest
    else
      let segment := segs.getD i ""
      match getAssoc node.children segment with
      | some sc => iterGo fuel segs segCount methodU sc (i + 1) ps stack
      | none =>
        match node.paramChild with
        | some pc =>
          match decodeGuard segment with
          | none => some (.error ())
          | some v =>
            iterGo fuel segs segCount methodU pc (i + 1)
              (setAssoc ps (pc.paramName.getD "") v)
              (⟨pc, i + 1, some (pc.paramName.getD "")⟩ :: stack)
        | none =>
          match node.wildcardChild with
          | some wc =>
            match decodeGuard (joinSlash (segs.drop i)) with
            | none => some (.error ())
            | some wv =>
              let ps' := setAssoc ps "*" wv
              match getAssoc wc.routes methodU with
              | some r => some (.ok (some ⟨r.handler, r.middleware, ps'⟩))
              | none =>
                match stack with
                | [] => some (.ok none)
                | fr :: rest =>
                  iterGo fuel segs segCount methodU fr.node fr.index
                    (match fr.pName with | some n => delAssoc ps' n | none => ps') rest
          | none =>
            match stack with
            | [] => some (.ok none)
            | fr :: rest =>
              iterGo fuel segs segCount methodU fr.node fr.index
                (match fr.pName with | some n => delAssoc ps n | none => ps) rest

/-- `findRoute(root, method, path)` of radix-tree.ts (lines 61-230):
fast path for `''`/`'/'` against the root's table, fast path for a
single segment (static, then param, then wildcard, each gated on the
route existing before decoding), and the general loop otherwise. -/
def findRouteIter (fuel : Nat) (root : Node) (method path : String) :
    Option (Except Unit (Option MatchResult)) :=
  let methodU := upper method
  if path = "/" ∨ path = "" then
    some (.ok ((getAssoc root.routes methodU).map fun r => ⟨r.handler, r.middleware, []⟩))
  else
    let segs := tsSplit path
    let segCount := tsSegCount path
    if segCount = 1 then
      let segment := segs.getD 0 ""
      match (getAssoc root.children segment).bind fun sc => getAssoc sc.routes methodU with
      | some r => some (.ok (some ⟨r.handler, r.middleware, []⟩))
      | none =>
        match root.paramChild.bind fun pc =>
            (getAssoc pc.routes methodU).map fun r => (pc, r) with
        | some (pc, r) =>
          match decodeGuard segment with
          | none => some (.error ())
          | some v =>
            some (.ok (some ⟨r.handler, r.middleware, [(pc.paramName.getD "", v)]⟩))
        | none =>
          match root.wildcardChild.bind fun wc => getAssoc wc.routes methodU with
          | some r =>
            match decodeGuard segment with
            | none => some (.error ())
            | some v => some (.ok (some ⟨r.handler, r.middleware, [("*", v)]⟩))
          | none => some (.ok none)
    else
      iterGo fuel segs segCount methodU root 0 [] []

end TS

/-! ### Concrete route sets used by the claim theorems -/

/-- `/users/active` (handler 1) and `/users/:id` (handler 2), both GET,
in the JS tree. -/
def jsStaticParamTree : JS.RadixTree :=
  JS.addRoute (JS.addRoute JS.RadixTree.empty "GET" "/users/active" 1 [])
    "GET" "/users/:id" 2 []

/-- `GET /users/:id` (handler 1) and `GET /users/active/sub` (handler 2)
in the TS tree: a static dead end at `/users/active` that backtracking
must escape through the param branch. -/
def c1tree : TS.Node :=
  TS.insertRoute
    (TS.insertRoute (TS.createNode "") "GET" ⟨"/users/:id", 1, [], ["id"]⟩)
    "GET" ⟨"/users/active/sub", 2, [], []⟩

/-- `POST /a/*` (handler 1) and `GET /:x/b` (handler 2) in the JS tree:
the GET lookup of `/a/b` makes the wildcard attempt fail inside the
static branch before the param branch succeeds. -/
def c2tree : JS.RadixTree :=
  JS.addRoute (JS.addRoute JS.RadixTree.empty "POST" "/a/*" 1 []) "GET" "/:x/b" 2 []

/-- `GET /files/*/x` (handler 7): a wildcard that is not the final
segment. -/
def c3tree : JS.RadixTree := JS.addRoute JS.RadixTree.empty "GET" "/files/*/x" 7 []

/-- `GET /a/:` (handler 3): a bare `:` parameter with an empty name. -/
def c4tree : JS.RadixTree := JS.addRoute JS.RadixTree.empty "GET" "/a/:" 3 []

/-- `GET /users/:id` (handler 1) in the JS tree. -/
def c5tree : JS.RadixTree := JS.addRoute JS.RadixTree.empty "GET" "/users/:id" 1 []

/-- `GET /a/:x/b` (handler 1) then `GET /a/:y/c` (handler 2): two
different parameter names at the same tree position. -/
def c6tree : JS.RadixTree :=
  JS.addRoute (JS.addRoute JS.RadixTree.empty "GET" "/a/:x/b" 1 []) "GET" "/a/:y/c" 2 []

/-- `/x` (handler 5) registered with the lowercase method string `get`
in the JS tree. -/
def c7jsTree : JS.RadixTree := JS.addRoute JS.RadixTree.empty "get" "/x" 5 []

/-- The same route in the TS tree, also registered with `get`. -/
def c7tsTree : TS.Node :=
  TS.insertRoute (TS.createNode "") "get" ⟨"/x", 5, [], []⟩

/-- `GET /` (handler 9) in the JS tree. -/
def c8tree : JS.RadixTree := JS.addRoute JS.RadixTree.empty "GET" "/" 9 []

/-- `GET /search/:term` (handler 1). -/
def c9tree1 : JS.RadixTree := JS.addRoute JS.RadixTree.empty "GET" "/search/:term" 1 []

/-- `GET /files/*` (handler 2). -/
def c9tree2 : JS.RadixTree := JS.addRoute JS.RadixTree.empty "GET" "/files/*" 2 []

/-- `GET /a%20b` (handler 3): a static segment containing a percent
escape as raw text. -/
def c9tree3 : JS.RadixTree := JS.addRoute JS.RadixTree.empty "GET" "/a%20b" 3 []

/-! ## Helper lemmas -/

/-- Cascade view of one step of `JS.search`: static attempt first, then
the parameter attempt (`searchP`), then the wildcard attempt (`searchW`),
each receiving the params state left behind by the previous attempt. -/
theorem search_cons (node : JS.RadixNode) (seg : String) (rest : List String)
    (ps : Params) (method : String) :
    JS.search node (seg :: rest) ps method =
      match (match getAssoc node.children seg with
             | some child => JS.search child rest ps method
             | none => .ok (none, ps)) with
      | .error e => .error e
      | .ok (some r, p) => .ok (some r, p)
      | .ok (none, p1) =>
        match JS.searchP node seg rest p1 method with
        | .error e => .error e
        | .ok (some r, p) => .ok (some r, p)
        | .ok (none, p2) => JS.searchW node (seg :: rest) p2 method := rfl

/-- Cascade view of one step of `JS.specRoute`. -/
theorem spec_cons (node : JS.RadixNode) (seg : String) (rest : List String)
    (method : String) :
    JS.specRoute node (seg :: rest) method =
      match (match getAssoc node.children seg with
             | some child => JS.specRoute child rest method
             | none => none) with
      | some r => some r
      | none =>
        match JS.specP node rest method with
        | some r => some r
        | none => JS.specW node method := rfl

/-- If every segment percent-decodes, the throwing map over the segment
list succeeds. -/
theorem decodeAll_isSome {l : List String}
    (h : ∀ s ∈ l, (decodeURIComponent s).isSome) :
    ∃ vs, decodeAll l = some vs := by
  induction l with
  | nil => exact ⟨[], rfl⟩
  | cons a t ih =>
    obtain ⟨v, hv⟩ := Option.isSome_iff_exists.mp (h a (List.mem_cons_self a t))
    obtain ⟨vs, hvs⟩ := ih fun s hs => h s (List.mem_cons_of_mem a hs)
    exact ⟨v :: vs, by simp [decodeAll, hv, hvs]⟩

/-- On a path whose segments all percent-decode, `RadixTree._search`
returns normally and selects exactly the route that the spec's
static-then-parameter-then-wildcard backtracking cascade selects,
for every tree, starting params state, and method. -/
theorem search_spec (m : String) :
    ∀ (rem : List String), (∀ s ∈ rem, (decodeURIComponent s).isSome) →
      ∀ (node : JS.RadixNode) (ps : Params),
        ∃ p', JS.search node rem ps m = .ok (JS.specRoute node rem m, p') := by
  intro rem
  induction rem with
  | nil => exact fun _ node ps => ⟨ps, rfl⟩
  | cons seg rest ih =>
    intro hdec node ps
    have hseg : (decodeURIComponent seg).isSome := hdec seg (List.mem_cons_self seg rest)
    have hrest : ∀ s ∈ rest, (decodeURIComponent s).isSome :=
      fun s hs => hdec s (List.mem_cons_of_mem seg hs)
    have hwild : ∀ (p2 : Params),
        ∃ p', JS.searchW node (seg :: rest) p2 m = .ok (JS.specW node m, p') := by
      intro p2
      cases hwc : node.wildcardChild with
      | none => exact ⟨p2, by simp [JS.searchW, JS.specW, hwc]⟩
      | some wc =>
        obtain ⟨vs, hvs⟩ := decodeAll_isSome (l := seg :: rest) hdec
        exact ⟨setAssoc p2 (wc.paramName.getD "") (joinSlash vs),
          by simp [JS.searchW, JS.specW, hwc, hvs]⟩
    have hP : ∀ (p1 : Params),
        ∃ p', (match JS.searchP node seg rest p1 m with
               | .error e => .error e
               | .ok (some r, p) => .ok (some r, p)
               | .ok (none, p2) => JS.searchW node (seg :: rest) p2 m) =
          Except.ok ((match JS.specP node rest m with
                      | some r => some r
                      | none => JS.specW node m), p') := by
      intro p1
      cases hpc : node.paramChild with
      | none =>
        obtain ⟨p', hw⟩ := hwild p1
        exact ⟨p', by simp [JS.searchP, JS.specP, hpc, hw]⟩
      | some pc =>
        obtain ⟨v, hv⟩ := Option.isSome_iff_exists.mp hseg
        obtain ⟨p2, h2⟩ := ih hrest pc (setAssoc p1 (pc.paramName.getD "") v)
        cases hs : JS.specRoute pc rest m with
        | some r =>
          exact ⟨p2, by simp [JS.searchP, JS.specP, hpc, hv, h2, hs]⟩
        | none =>
          obtain ⟨p', hw⟩ := hwild (delAssoc p2 (pc.paramName.getD ""))
          exact ⟨p', by simp [JS.searchP, JS.specP, hpc, hv, h2, hs, hw]⟩
    rw [search_cons, spec_cons]
    cases hc : getAssoc node.children seg with
    | none =>
      obtain ⟨p', hp⟩ := hP ps
      exact ⟨p', by simp [hp]⟩
    | some child =>
      obtain ⟨p1, h1⟩ := ih hrest child ps
      cases hs1 : JS.specRoute child rest m with
      | some r => exact ⟨p1, by simp [h1, hs1]⟩
      | none =>
        obtain ⟨p', hp⟩ := hP p1
        exact ⟨p', by simp [h1, hs1, hp]⟩

/-- Insertion never changes the `paramName` already carried by a node:
`addRoute` sets the name only when it creates a fresh child. -/
theorem insertSegs_paramName (pc : JS.RadixNode) (segs : List String)
    (m : String) (f : Found) :
    (JS.insertSegs pc segs m f).paramName = pc.paramName := by
  obtain ⟨ch, pcf, wcf, h, pn⟩ := pc
  cases segs with
  | nil => rfl
  | cons s t =>
    simp only [JS.insertSegs]
    split
    · rfl
    · split
      · rfl
      · rfl

/-! ## Claim theorems -/

/-- C1 (counterexample): the two matchers cited for this claim disagree
on the same tree (`GET /users/:id` and `GET /users/active/sub`).  The
recursive matcher of part_005 backtracks out of the static dead end at
`/users/active` and returns the parameter route binding `id = active`,
as the claim requires of every matcher; the iterative `findRoute` of
radix-tree.ts pushes no alternative when it takes a static edge, so the
same lookup returns `null` instead of trying the parameter child. -/
theorem c1_counterexample :
    TS.findRouteRec c1tree "GET" "/users/active" =
      .ok (some ⟨1, [], [("id", "active")]⟩) ∧
    TS.findRouteIter 20 c1tree "GET" "/users/active" = some (.ok none) :=
  ⟨rfl, rfl⟩

/-- C1 (amended): for the recursive matcher `RadixTree._search` of
radix-tree.js the claim holds: on every tree and every path whose
segments percent-decode, the route returned is exactly the one chosen
by the spec's fixed static-then-parameter-then-wildcard priority with
backtracking (`JS.specRoute`); in particular, with both `/users/active`
and `/users/:id` registered for GET, `findRoute("GET", "/users/active")`
returns the static route (handler 1) and no parameter binding. -/
theorem c1_theorem :
    (∀ (node : JS.RadixNode) (rem : List String) (ps : Params) (m : String),
        (∀ s ∈ rem, (decodeURIComponent s).isSome) →
        ∃ p', JS.search node rem ps m = .ok (JS.specRoute node rem m, p')) ∧
    JS.findRoute jsStaticParamTree "GET" "/users/active" = .ok (some ⟨1, [], []⟩) :=
  ⟨fun node rem ps m hdec => search_spec m rem hdec node ps, rfl⟩

/-- C1 (witness): the amended theorem applied at a concrete tree, path
and params state, its decodability hypothesis discharged by `decide`. -/
theorem c1_theorem_witness :
    ∃ p', JS.search jsStaticParamTree.root ["users", "42"] [] "GET" =
      .ok (JS.specRoute jsStaticParamTree.root ["users", "42"] "GET", p') :=
  c1_theorem.1 jsStaticParamTree.root ["users", "42"] [] "GET" (by decide)

/-- C2 (code evaluated at the failing input): with `POST /a/*` and
`GET /:x/b` registered, `findRoute("GET", "/a/b")` matches `/:x/b`, but
the returned params also contain `wildcard ↦ "b"` — the binding made by
the failed wildcard attempt inside the abandoned static branch, which
`_search` never unbinds (it deletes only parameter bindings on
backtrack, lines 122-127, and nothing in lines 130-135).  The claim's
required result is `{x ↦ "a"}` alone. -/
theorem c2_theorem :
    JS.findRoute c2tree "GET" "/a/b" =
      .ok (some ⟨2, [], [("wildcard", "b"), ("x", "a")]⟩) := rfl

/-- C3 (counterexample): a pattern whose wildcard is followed by further
segments does not fail to compile and is not rejected at registration:
`RouteCompiler.compile` returns a normal compiled pattern with the
wildcard mid-list, and `addRoute` inserts the route, whose method entry
sits at the static `x` child *below* the wildcard child. -/
theorem c3_counterexample :
    JS.compile "/files/*/x" =
      ⟨"/files/*/x", ["wildcard"],
       [.staticSeg "files", .wild "wildcard", .staticSeg "x"], 3⟩ ∧
    (((c3tree.root.childAt "files").bind JS.RadixNode.wildcardChild).bind
        (fun wc => wc.childAt "x")).map JS.RadixNode.handler =
      some (some [("GET", ⟨7, []⟩)]) :=
  ⟨rfl, rfl⟩

/-- C3 (amended): no `PatternError` exists; a pattern with a
non-terminal wildcard registers successfully, but because matching
treats a wildcard child as terminal (it never recurses past it), the
inserted route is unreachable: lookups that the pattern was meant to
serve, and even its own literal path, return NotFound. -/
theorem c3_theorem :
    JS.findRoute c3tree "GET" "/files/a/x" = .ok none ∧
    JS.findRoute c3tree "GET" "/files/*/x" = .ok none :=
  ⟨rfl, rfl⟩

/-- C4 (counterexample): a bare-`:` segment does not fail registration:
`RouteCompiler.compile` accepts `/a/:` and produces a parameter segment
whose name is the empty string. -/
theorem c4_counterexample :
    JS.compile "/a/:" = ⟨"/a/:", [""], [.staticSeg "a", .param ""], 2⟩ := rfl

/-- C4 (amended): there is no `PatternError`; a pattern with a bare `:`
registers a parameter child named `""`, and at request time the route
matches normally, binding the decoded segment value under the
empty-string key — no failure at registration or at request time. -/
theorem c4_theorem :
    JS.findRoute c4tree "GET" "/a/v" = .ok (some ⟨3, [], [("", "v")]⟩) := rfl

/-- C5 (counterexample): with `GET /users/:id` registered, matching the
path `/users/%zz` does not return a result: the parameter attempt calls
`decodeURIComponent("%zz")`, which throws a `URIError` that propagates
out of `findRoute`. -/
theorem c5_counterexample :
    JS.findRoute c5tree "GET" "/users/%zz" = .error () := rfl

/-- C5 (amended): `findRoute` returns normally — a complete match or
NotFound, never an exception — for every tree and method, provided
every segment of the queried path percent-decodes; a malformed escape
such as `%zz` in a segment captured by a parameter or wildcard escapes
as a thrown `URIError`. -/
theorem c5_theorem :
    ∀ (t : JS.RadixTree) (m path : String),
      (∀ s ∈ JS.pathSegments path, (decodeURIComponent s).isSome) →
      ∃ r, JS.findRoute t m path = .ok r := by
  intro t m path hdec
  obtain ⟨p', hs⟩ := search_spec m (JS.pathSegments path) hdec t.root []
  unfold JS.findRoute
  rw [hs]
  cases JS.specRoute t.root (JS.pathSegments path) m with
  | some f => exact ⟨some ⟨f.handler, f.middleware, p'⟩, rfl⟩
  | none => exact ⟨none, rfl⟩

/-- C5 (witness): the amended theorem at a concrete tree and path, the
decodability hypothesis discharged by `decide`. -/
theorem c5_theorem_witness : ∃ r, JS.findRoute c5tree "GET" "/users/42" = .ok r :=
  c5_theorem c5tree "GET" "/users/42" (by decide)

/-- C6 (counterexample): registering `GET /a/:x/b` and then
`GET /a/:y/c` does *not* make later matches bind under the most recent
name `y`: matching `/a/v/c` returns the second route (handler 2) with
the value bound under the *first* registration's name `x`. -/
theorem c6_counterexample :
    JS.findRoute c6tree "GET" "/a/v/c" = .ok (some ⟨2, [], [("x", "v")]⟩) := rfl

/-- C6 (amended): the conflict policy is first-write-wins, not
last-write-wins: `addRoute` sets a param child's bound name only when it
creates the child, so inserting any further pattern through an existing
param child leaves the originally bound name unchanged, and subsequent
matches bind values under the earliest registration's name. -/
theorem c6_theorem :
    ∀ (node pc : JS.RadixNode) (nm : String) (rest : List String)
      (m : String) (f : Found),
      node.paramChild = some pc →
      ((JS.insertSegs node ((":" ++ nm) :: rest) m f).paramChild).map
          JS.RadixNode.paramName = some pc.paramName := by
  intro node pc nm rest m f hp
  obtain ⟨d⟩ := nm
  obtain ⟨ch, pcf, wcf, h, pn⟩ := node
  simp only [JS.RadixNode.paramChild] at hp
  subst hp
  have hcond : strStartsWith (":" ++ String.mk d) ':' = true := rfl
  simp [JS.insertSegs, hcond, JS.RadixNode.paramChild, insertSegs_paramName]

/-- C6 (witness): the amended theorem at a concrete node whose param
child is already named `x`, inserting `:y/c`: the bound name stays `x`. -/
theorem c6_theorem_witness :
    ((JS.insertSegs
        (JS.RadixNode.mk [] (some (JS.RadixNode.mk [] none none none (some "x")))
          none none none)
        ((":" ++ "y") :: ["c"]) "GET" ⟨2, []⟩).paramChild).map
      JS.RadixNode.paramName = some (some "x") :=
  c6_theorem
    (JS.RadixNode.mk [] (some (JS.RadixNode.mk [] none none none (some "x")))
      none none none)
    (JS.RadixNode.mk [] none none none (some "x"))
    "y" ["c"] "GET" ⟨2, []⟩ rfl

/-- C7 (counterexample): `RadixTree` (radix-tree.js) does not normalize
method case: a route registered with method string `get` is not found
when queried with its uppercase form `GET`. -/
theorem c7_counterexample : JS.findRoute c7jsTree "GET" "/x" = .ok none := rfl

/-- C7 (amended): only the TypeScript tree normalizes methods to
uppercase — there a route registered with `get` is found under both
`GET` and `get`; the JS `RadixTree` stores and looks methods up
verbatim, so the `get`-registered route is found only by the literal
string `get`. -/
theorem c7_theorem :
    TS.findRouteRec c7tsTree "GET" "/x" = .ok (some ⟨5, [], []⟩) ∧
    TS.findRouteRec c7tsTree "get" "/x" = .ok (some ⟨5, [], []⟩) ∧
    JS.findRoute c7jsTree "get" "/x" = .ok (some ⟨5, [], []⟩) :=
  ⟨rfl, rfl, rfl⟩

/-- C8 (counterexample): in radix-tree.js the two paths are not
equivalent: registering `GET /` stores the route under a static child
keyed by the literal `'/'`, so `findRoute("GET", "/")` finds it while
`findRoute("GET", "")` consults the (empty) root table and misses. -/
theorem c8_counterexample :
    JS.findRoute c8tree "GET" "/" = .ok (some ⟨9, [], []⟩) ∧
    JS.findRoute c8tree "GET" "" = .ok none :=
  ⟨rfl, rfl⟩

/-- C8 (amended): in the recursive TS `findRoute` (part_005) the claim
holds — `""` and `"/"` both split to the zero-segment case and return
identical results for every tree and method.  In radix-tree.js, `"/"`
is instead normalized to the one-segment list `['/']`: `addRoute`
places a `/`-pattern route at the static child keyed `'/'` and leaves
the root's method table empty, which is why the two paths can differ. -/
theorem c8_theorem :
    (∀ (root : TS.Node) (m : String),
        TS.findRouteRec root m "" = TS.findRouteRec root m "/") ∧
    (c8tree.root.childAt "/").map JS.RadixNode.handler =
        some (some [("GET", ⟨9, []⟩)]) ∧
    c8tree.root.handler = none :=
  ⟨fun _ _ => rfl, rfl, rfl⟩

/-- C9: percent-decoding applies to captured parameter values
(`/search/:term` on `/search/a%20b` binds `term ↦ "a b"`) and to the
joined wildcard remainder (`/files/*` on `/files/a%20b/c` binds
`wildcard ↦ "a b/c"`), while static matching compares raw literal text:
the static route `/a%20b` is matched by the byte-identical path
`/a%20b` and not by the decoded form `/a b`. -/
theorem c9_theorem :
    JS.findRoute c9tree1 "GET" "/search/a%20b" =
      .ok (some ⟨1, [], [("term", "a b")]⟩) ∧
    JS.findRoute c9tree2 "GET" "/files/a%20b/c" =
      .ok (some ⟨2, [], [("wildcard", "a b/c")]⟩) ∧
    JS.findRoute c9tree3 "GET" "/a%20b" = .ok (some ⟨3, [], []⟩) ∧
    JS.findRoute c9tree3 "GET" "/a b" = .ok none :=
  ⟨rfl, rfl, rfl, rfl⟩

/-- C10: trailing-slash equivalence: for every registered route set and
every method, `/users/` and `/users` normalize to the same segment
sequence and return identical results, in radix-tree.js (which strips
one trailing slash and discards empty segments) and in the recursive TS
`findRoute` (which discards empty segments when splitting). -/
theorem c10_theorem :
    (∀ (t : JS.RadixTree) (m : String),
        JS.findRoute t m "/users/" = JS.findRoute t m "/users") ∧
    (∀ (root : TS.Node) (m : String),
        TS.findRouteRec root m "/users/" = TS.findRouteRec root m "/users") :=
  ⟨fun _ _ => rfl, fun _ _ => rfl⟩
